import Mathlib

/-!
Verification development for the tgAI preclinical-study statistics engine.

The definitions below are shallow embeddings of the TypeScript sources:
* `src/utils/AnimalDataManager.ts` — tabular-to-longitudinal consolidation,
* `src/utils/StatisticalAnalysis.ts` — TGI calculator, Welch t-test and
  distribution approximations,
* `src/utils/TumorStatisticalAnalysis.ts` — advanced TGI statistics
  (Mann-Whitney U, bootstrap CI, simplified t p-value),
* the TGI-over-time timepoint gating of the `TGIAnalysis` component.

JavaScript numbers are modelled by exact arithmetic (`ℚ` where the code only
uses field operations and comparisons, `ℝ` where `Math.sqrt`/`Math.exp` enter).
JavaScript's stable `Array.prototype.sort` is modelled by
`List.insertionSort`, and `Math.random()`-driven index draws are passed in
explicitly as functions, so every routine is a deterministic function of its
inputs.
-/

set_option maxHeartbeats 1000000

/-- Model of the JavaScript cell values that can appear in a raw spreadsheet
row: a (finite) number, a string, `null`, or `undefined` (also used for an
absent key). -/
inductive JsValue where
  | num (q : ℚ)
  | str (s : String)
  | null
  | undef
deriving DecidableEq

/-- JavaScript truthiness for the values a cell can hold: `0`, the empty
string, `null` and `undefined` are falsy, everything else is truthy. -/
def JsValue.truthy : JsValue → Bool
  | .num q => q ≠ 0
  | .str s => s ≠ ""
  | .null => false
  | .undef => false

/-- The JavaScript short-circuit `a || b` on cell values: `b` exactly when
`a` is falsy. -/
def orJs (a b : JsValue) : JsValue :=
  if a.truthy then a else b

/-- A raw row is a JavaScript object: an association list from column name to
cell value (keys are unique in an actual JS object and iterate in insertion
order). -/
abbrev Row : Type := List (String × JsValue)

/-- Property access `row[key]`: the first binding of the key, `undefined`
when the key is absent. -/
def rowGet (row : Row) (k : String) : JsValue :=
  match row.find? (fun e => e.1 = k) with
  | some e => e.2
  | none => JsValue.undef

def keyAnimalId1 : String := "Animal_ID"
def keyAnimalId2 : String := "AnimalID"
def keyAnimalId3 : String := "animalId"
def keyStudyDay1 : String := "Study_Day"
def keyStudyDay2 : String := "Day"
def keyStudyDay3 : String := "studyDay"
def keyDate1 : String := "Date"
def keyDate2 : String := "Measurement_Date"
def keyGroup1 : String := "Group"
def keyGroup2 : String := "Treatment_Group"
def keyStrain : String := "Strain"
def keySex : String := "Sex"

/-- The reserved identifier/day/date columns that are not folded into the
measurement parameter map. -/
def reservedKeys : List String :=
  [keyAnimalId1, keyAnimalId2, keyAnimalId3, keyStudyDay1, keyStudyDay2,
   keyStudyDay3, keyDate1, keyDate2]

/-- Numeric value of a digit run (most significant first). -/
def digitsToNat (cs : List Char) : ℕ :=
  cs.foldl (fun n c => 10 * n + (c.toNat - 48)) 0

/-- Leading unsigned-integer digits of a character stream. -/
def leadingDigits (cs : List Char) : List Char :=
  cs.takeWhile (fun c => c.isDigit)

/-- Model of `parseInt` on a leading-trimmed character stream: optional sign followed
by at least one digit (hex prefixes and exponent forms are not modelled; they
do not occur in study-day cells). -/
def parseIntChars (cs : List Char) : Option ℤ :=
  match cs with
  | '-' :: rest =>
    if (leadingDigits rest).length = 0 then none
    else some (-(digitsToNat (leadingDigits rest) : ℤ))
  | '+' :: rest =>
    if (leadingDigits rest).length = 0 then none
    else some ((digitsToNat (leadingDigits rest) : ℤ))
  | _ =>
    if (leadingDigits cs).length = 0 then none
    else some ((digitsToNat (leadingDigits cs) : ℤ))

/-- JavaScript `parseInt` on a cell value, `none` standing for `NaN`.
A number is stringified and re-parsed, which truncates it toward zero; a
string is parsed from its leading characters after whitespace; `null` and
`undefined` stringify to non-numeric text and give `NaN`. -/
def parseIntJs : JsValue → Option ℤ
  | .num q => some (if 0 ≤ q then ⌊q⌋ else ⌈q⌉)
  | .str s => parseIntChars ((s.toList).dropWhile (fun c => c = ' '))
  | .null => none
  | .undef => none

/-- Fractional value of the digit run after a decimal point. -/
def fracOfDigits (cs : List Char) : ℚ :=
  (digitsToNat cs : ℚ) / (10 : ℚ) ^ cs.length

/-- Leading decimal literal `digits[.digits]` (needs at least one digit
somewhere). -/
def parseFloatMag (cs : List Char) : Option ℚ :=
  let intPart := leadingDigits cs
  let rest := cs.drop intPart.length
  match rest with
  | '.' :: rest2 =>
    let fracPart := leadingDigits rest2
    if intPart.length = 0 ∧ fracPart.length = 0 then none
    else some ((digitsToNat intPart : ℚ) + fracOfDigits fracPart)
  | _ =>
    if intPart.length = 0 then none
    else some ((digitsToNat intPart : ℚ))

/-- Model of `parseFloat` on a leading-trimmed character stream: optional sign and a
decimal literal (exponent notation is not modelled). -/
def parseFloatChars (cs : List Char) : Option ℚ :=
  match cs with
  | '-' :: rest => (parseFloatMag rest).map (fun q => -q)
  | '+' :: rest => parseFloatMag rest
  | _ => parseFloatMag cs

/-- JavaScript `parseFloat` on a cell value, `none` standing for `NaN`. -/
def parseFloatJs : JsValue → Option ℚ
  | .num q => some q
  | .str s => parseFloatChars ((s.toList).dropWhile (fun c => c = ' '))
  | .null => none
  | .undef => none

/-- One observation for one animal at one study day
(`AnimalDataManager.ts`, `Measurement`). The parameter map is an association
list in JS-object key order. -/
structure Measurement where
  studyDay : ℤ
  date : JsValue
  measurements : List (String × JsValue)
deriving DecidableEq

/-- Per-animal longitudinal record (`AnimalDataManager.ts`, `AnimalRecord`). -/
structure AnimalRecord where
  animalId : JsValue
  group : JsValue
  strain : JsValue
  sex : JsValue
  measurements : List Measurement
deriving DecidableEq

/-- Replace the first element satisfying `p` by its image under `f`
(models an in-place mutation of the element returned by `Array.find`). -/
def updateFirst {α : Type} (p : α → Bool) (f : α → α) : List α → List α
  | [] => []
  | x :: xs => if p x then f x :: xs else x :: updateFirst p f xs

/-- JS object property assignment `obj[k] = v` on an association list: an
existing key keeps its position and gets the new value, a new key is appended. -/
def objSet (m : List (String × JsValue)) (k : String) (v : JsValue) :
    List (String × JsValue) :=
  if m.any (fun e => e.1 = k) then updateFirst (fun e => e.1 = k) (fun e => (e.1, v)) m
  else m ++ [(k, v)]

/-- The per-key loop of `addMeasurement`: every non-reserved column is
coerced to a number when `parseFloat` succeeds, otherwise kept verbatim when
it is not `undefined`/`null`/empty-string, and written into the parameter
map. -/
def applyRowEntries (m : List (String × JsValue)) (row : Row) :
    List (String × JsValue) :=
  row.foldl
    (fun acc e =>
      if e.1 ∈ reservedKeys then acc
      else
        match parseFloatJs e.2 with
        | some q => objSet acc e.1 (JsValue.num q)
        | none =>
          if e.2 ≠ JsValue.undef ∧ e.2 ≠ JsValue.null ∧ e.2 ≠ JsValue.str ("") then
            objSet acc e.1 e.2
          else acc)
    m

/-- Comparator relation of the `sort((a, b) => a.studyDay - b.studyDay)`
call: ascending study day. -/
def dayLE (a b : Measurement) : Prop := a.studyDay ≤ b.studyDay

instance : DecidableRel dayLE := fun a b => Int.decLe a.studyDay b.studyDay

instance : IsTotal Measurement dayLE := ⟨fun a b => Int.le_total a.studyDay b.studyDay⟩

instance : IsTrans Measurement dayLE :=
  ⟨fun _ _ _ h1 h2 => Int.le_trans h1 h2⟩

/-- Embedding of `AnimalDataManager.addMeasurement` acting on one animal record: resolve
the study day through the alias chain `Study_Day || Day || studyDay`, drop
the row when it is not numeric, find-or-create the day's measurement, fold
in the row's parameter columns, and re-sort the measurement list by study
day (the stable JS sort is modelled by insertion sort). -/
def addMeasurement (animal : AnimalRecord) (row : Row) : AnimalRecord :=
  match parseIntJs (orJs (orJs (rowGet row keyStudyDay1) (rowGet row keyStudyDay2))
      (rowGet row keyStudyDay3)) with
  | none => animal
  | some day =>
    let ms := animal.measurements
    let ms2 :=
      if ms.any (fun m => m.studyDay = day) then
        updateFirst (fun m => m.studyDay = day)
          (fun m => { m with measurements := applyRowEntries m.measurements row }) ms
      else
        ms ++ [{ studyDay := day,
                 date := orJs (rowGet row keyDate1) (rowGet row keyDate2),
                 measurements := applyRowEntries [] row }]
    { animal with measurements := ms2.insertionSort dayLE }

/-- The manager's `animals` map, as an insertion-ordered association list
keyed by the resolved animal identifier value. -/
abbrev Manager : Type := List (JsValue × AnimalRecord)

/-- Embedding of `AnimalDataManager.addMeasurement` at the manager level: a missing key
leaves the map unchanged, otherwise the stored record is updated in place. -/
def managerAdd (st : Manager) (id : JsValue) (row : Row) : Manager :=
  if st.any (fun e => e.1 = id) then
    updateFirst (fun e => e.1 = id) (fun e => (e.1, addMeasurement e.2 row)) st
  else st

/-- One iteration of `consolidateData`: resolve the animal identifier through
`Animal_ID || AnimalID || animalId`, drop the row when it is falsy, create
the record on first sight (capturing group/strain/sex aliases), then fold the
row in via `addMeasurement`. -/
def consolidateRow (st : Manager) (row : Row) : Manager :=
  let animalId := orJs (orJs (rowGet row keyAnimalId1) (rowGet row keyAnimalId2))
      (rowGet row keyAnimalId3)
  if animalId.truthy then
    let st2 :=
      if st.any (fun e => e.1 = animalId) then st
      else st ++ [(animalId,
        { animalId := animalId,
          group := orJs (rowGet row keyGroup1) (rowGet row keyGroup2),
          strain := rowGet row keyStrain,
          sex := rowGet row keySex,
          measurements := [] })]
    managerAdd st2 animalId row
  else st

/-- Embedding of `AnimalDataManager.consolidateData`: fold all raw rows into the map. -/
def consolidateData (st : Manager) (rows : List Row) : Manager :=
  rows.foldl consolidateRow st

/-- A public operation on an `AnimalDataManager` instance. -/
inductive ManagerOp where
  | consolidate (rows : List Row)
  | add (id : JsValue) (row : Row)

/-- Apply one public operation. -/
def applyOp (st : Manager) : ManagerOp → Manager
  | .consolidate rows => consolidateData st rows
  | .add id row => managerAdd st id row

/-- The manager state after a sequence of public calls on a fresh instance. -/
def runOps (ops : List ManagerOp) : Manager :=
  ops.foldl applyOp []

namespace StatisticalAnalysis

noncomputable section

/-- Output record of the growth-rate TGI calculator
(`StatisticalAnalysis.ts`, `TGIStatistics`). -/
structure TGIStatistics where
  tgi : ℝ
  tgiSEM : ℝ
  pValue : ℝ
  significance : String
  n : ℕ
  treatmentGrowth : ℝ
  controlGrowth : ℝ
  treatmentGrowthSEM : ℝ
  controlGrowthSEM : ℝ

/-- Arithmetic mean (`reduce.sum / length`). -/
def mean (values : List ℝ) : ℝ :=
  values.sum / values.length

/-- Sample standard deviation: square root of the `n - 1` variance. -/
def standardDeviation (values : List ℝ) : ℝ :=
  Real.sqrt ((values.map (fun v => (v - mean values) ^ 2)).sum / ((values.length : ℝ) - 1))

/-- Standard error of the mean. -/
def standardError (values : List ℝ) : ℝ :=
  standardDeviation values / Real.sqrt values.length

/-- Five-coefficient Abramowitz-Stegun approximation of the error function,
with the sign/abs handling of the source. -/
def erf (x : ℝ) : ℝ :=
  let a1 : ℝ := 0.254829592
  let a2 : ℝ := -0.284496736
  let a3 : ℝ := 1.421413741
  let a4 : ℝ := -1.453152027
  let a5 : ℝ := 1.061405429
  let p : ℝ := 0.3275911
  let sign : ℝ := if 0 ≤ x then 1 else -1
  let ax := |x|
  let t := 1 / (1 + p * ax)
  sign * (1 - (((((a5 * t + a4) * t) + a3) * t + a2) * t + a1) * t * Real.exp (-(ax * ax)))

/-- Normal CDF approximation `0.5 * (1 + erf(z / sqrt 2))`. -/
def normalCDF (z : ℝ) : ℝ :=
  0.5 * (1 + erf (z / Real.sqrt 2))

/-- Main (Lanczos) branch of the source's `gamma`, for arguments where the
reflection test fails; the source first shifts `z -= 1`. -/
def gammaMain (z : ℝ) : ℝ :=
  let z1 := z - 1
  let coefficients : List ℝ :=
    [676.5203681218851, -1259.1392167224028, 771.32342877765313,
     -176.61502916214059, 12.507343278686905, -0.13857109526572012,
     9.9843695780195716e-6, 1.5056327351493116e-7]
  let x := 0.99999999999980993 +
    (coefficients.enum.map (fun ci => ci.2 / (z1 + ci.1 + 1))).sum
  let t := z1 + (coefficients.length : ℝ) - 0.5
  Real.sqrt (2 * Real.pi) * Real.rpow t (z1 + 0.5) * Real.exp (-t) * x

/-- Stirling/Lanczos gamma approximation with the reflection formula for
`z < 0.5`; the recursive call in the source then lands in the main branch
(`1 - z ≥ 0.5`), so one unfolding is exact. -/
def gammaFn (z : ℝ) : ℝ :=
  if z < 0.5 then Real.pi / (Real.sin (Real.pi * z) * gammaMain (1 - z))
  else gammaMain z

/-- Beta function via gamma. -/
def betaFn (a b : ℝ) : ℝ :=
  gammaFn a * gammaFn b / gammaFn (a + b)

/-- The source's crude closed-form incomplete-beta approximation, clamped at
the ends. -/
def incompleteBeta (a b x : ℝ) : ℝ :=
  if x ≤ 0 then 0
  else if 1 ≤ x then 1
  else Real.rpow x a * Real.rpow (1 - x) b / (a * betaFn a b)

/-- t-distribution CDF approximation: normal approximation for `df > 30`,
otherwise the incomplete-beta form. -/
def tCDF (t df : ℝ) : ℝ :=
  if 30 < df then normalCDF t
  else 1 - 0.5 * incompleteBeta (df / 2) 0.5 (df / (t * t + df))

/-- Result record of Welch's t-test. -/
structure WelchResult where
  tStatistic : ℝ
  pValue : ℝ
  degreesOfFreedom : ℝ

/-- Welch's two-sample t-test with Welch-Satterthwaite degrees of freedom
(`StatisticalAnalysis.ts`, `welchTTest`). -/
def welchTTest (group1 group2 : List ℝ) : WelchResult :=
  let n1 : ℝ := group1.length
  let n2 : ℝ := group2.length
  let mean1 := mean group1
  let mean2 := mean group2
  let var1 := standardDeviation group1 ^ 2
  let var2 := standardDeviation group2 ^ 2
  let tStatistic := (mean1 - mean2) / Real.sqrt (var1 / n1 + var2 / n2)
  let degreesOfFreedom := (var1 / n1 + var2 / n2) ^ 2 /
    ((var1 / n1) ^ 2 / (n1 - 1) + (var2 / n2) ^ 2 / (n2 - 1))
  let pValue := 2 * (1 - tCDF |tStatistic| degreesOfFreedom)
  { tStatistic := tStatistic, pValue := pValue, degreesOfFreedom := degreesOfFreedom }

/-- Significance stars from the p-value. -/
def getSignificanceLevel (pValue : ℝ) : String :=
  if pValue < 0.001 then ("***")
  else if pValue < 0.01 then ("**")
  else if pValue < 0.05 then ("*")
  else ("ns")

/-- Growth-rate based TGI calculator (`StatisticalAnalysis.ts`,
`calculateTGI`): per-animal growth rates `v / v0 - 1`, group means, the
`(1 - dT/dC) * 100` TGI with its zero guard, error-propagated SEM, and a
Welch t-test on the growth-rate samples. -/
def calculateTGI (treatmentVolumes controlVolumes treatmentBaseline controlBaseline :
    List ℝ) : TGIStatistics :=
  let treatmentGrowthRates := List.zipWith (fun vol b => vol / b - 1)
    treatmentVolumes treatmentBaseline
  let controlGrowthRates := List.zipWith (fun vol b => vol / b - 1)
    controlVolumes controlBaseline
  let treatmentMeanGrowth := mean treatmentGrowthRates
  let controlMeanGrowth := mean controlGrowthRates
  let tgi := if 0 < controlMeanGrowth then
    (1 - treatmentMeanGrowth / controlMeanGrowth) * 100 else 0
  let treatmentSEM := standardError treatmentGrowthRates
  let controlSEM := standardError controlGrowthRates
  let tgiSEM := if 0 < controlMeanGrowth then
    (100 / controlMeanGrowth) * Real.sqrt (treatmentSEM ^ 2 +
      (treatmentMeanGrowth ^ 2 / controlMeanGrowth ^ 2) * controlSEM ^ 2) else 0
  let tTestResult := welchTTest treatmentGrowthRates controlGrowthRates
  { tgi := tgi,
    tgiSEM := tgiSEM,
    pValue := tTestResult.pValue,
    significance := getSignificanceLevel tTestResult.pValue,
    n := treatmentVolumes.length,
    treatmentGrowth := treatmentMeanGrowth * 100,
    controlGrowth := controlMeanGrowth * 100,
    treatmentGrowthSEM := treatmentSEM * 100,
    controlGrowthSEM := controlSEM * 100 }

/-- One matched `(animalId, baseline, volume)` sample fed to the timepoint
TGI computation. -/
structure TimepointAnimal where
  animalId : String
  baseline : ℝ
  volume : ℝ

/-- Embedding of `calculateTGIAtTimepoint`: project the matched samples onto volume and
baseline arrays and call `calculateTGI`. -/
def calculateTGIAtTimepoint (treatmentData controlData : List TimepointAnimal) :
    TGIStatistics :=
  calculateTGI (treatmentData.map (fun d => d.volume))
    (controlData.map (fun d => d.volume))
    (treatmentData.map (fun d => d.baseline))
    (controlData.map (fun d => d.baseline))

end

end StatisticalAnalysis

namespace TumorStatisticalAnalysis

/-- The tie-scanning rank-assignment loop of `mannWhitneyU`: walk the sorted
value list, give every member of a maximal block of equal values the average
rank `rank + (tieCount - 1) / 2`, and advance the running rank by the block
size. -/
def rankRuns {α : Type} [DecidableEq α] (r : ℚ) : List α → List ℚ
  | [] => []
  | x :: xs =>
    let tieCount : ℕ := 1 + (xs.takeWhile (fun y => y = x)).length
    List.replicate tieCount (r + ((tieCount : ℚ) - 1) / 2) ++
      rankRuns (r + (tieCount : ℚ)) (xs.dropWhile (fun y => y = x))
termination_by l => l.length
decreasing_by
  exact Nat.lt_succ_of_le ((List.dropWhile_sublist _).length_le)

/-- Comparator relation of the pooled sort `(a, b) => a.value - b.value`:
ascending by value; the group tag (`1` or `2`) rides along. -/
def pairLE (a b : ℝ × ℕ) : Prop := a.1 ≤ b.1

noncomputable instance : DecidableRel pairLE := fun a b => Real.decidableLE a.1 b.1

instance : IsTotal (ℝ × ℕ) pairLE := ⟨fun a b => le_total a.1 b.1⟩

instance : IsTrans (ℝ × ℕ) pairLE := ⟨fun _ _ _ h1 h2 => le_trans h1 h2⟩

/-- The tagged pooled sample of both groups, sorted ascending by value
(the stable JS sort is modelled by insertion sort). -/
noncomputable def mwSorted (group1 group2 : List ℝ) : List (ℝ × ℕ) :=
  ((group1.map (fun v => (v, 1))) ++ (group2.map (fun v => (v, 2)))).insertionSort pairLE

/-- The ranks assigned over the pooled sorted values, starting at rank 1. -/
noncomputable def mwRanks (group1 group2 : List ℝ) : List ℚ :=
  rankRuns 1 ((mwSorted group1 group2).map Prod.fst)

/-- Rank sum of group 1 over the pooled ranked sample. -/
noncomputable def mwRankSum (group1 group2 : List ℝ) : ℚ :=
  ((((mwSorted group1 group2).zip (mwRanks group1 group2)).filter
    (fun p => p.1.2 = 1)).map (fun p => p.2)).sum

/-- The statistic `U1 = R1 - n1 (n1 + 1) / 2`. -/
noncomputable def mwU1 (group1 group2 : List ℝ) : ℚ :=
  mwRankSum group1 group2 - (group1.length : ℚ) * ((group1.length : ℚ) + 1) / 2

/-- The statistic `U2 = n1 n2 - U1`. -/
noncomputable def mwU2 (group1 group2 : List ℝ) : ℚ :=
  (group1.length : ℚ) * (group2.length : ℚ) - mwU1 group1 group2

noncomputable section

/-- Arithmetic mean. -/
def mean (data : List ℝ) : ℝ :=
  data.sum / data.length

/-- Sample variance (denominator `n - 1`). -/
def variance (data : List ℝ) : ℝ :=
  (data.map (fun v => (v - mean data) ^ 2)).sum / ((data.length : ℝ) - 1)

/-- Sample standard deviation. -/
def standardDeviation (data : List ℝ) : ℝ :=
  Real.sqrt (variance data)

/-- Abramowitz-Stegun error-function approximation
(`TumorStatisticalAnalysis.ts`, `erf`; same coefficients as the other
module). -/
def erf (x : ℝ) : ℝ :=
  let a1 : ℝ := 0.254829592
  let a2 : ℝ := -0.284496736
  let a3 : ℝ := 1.421413741
  let a4 : ℝ := -1.453152027
  let a5 : ℝ := 1.061405429
  let p : ℝ := 0.3275911
  let sign : ℝ := if x < 0 then -1 else 1
  let ax := |x|
  let t := 1 / (1 + p * ax)
  sign * (1 - (((((a5 * t + a4) * t) + a3) * t + a2) * t + a1) * t * Real.exp (-(ax * ax)))

/-- Normal CDF `(1 + erf(z / sqrt 2)) / 2`. -/
def normalCDF (z : ℝ) : ℝ :=
  (1 + erf (z / Real.sqrt 2)) / 2

/-- The simplified t p-value of this module: always the two-sided normal
approximation `2 * (1 - normalCDF |t|)`, with the `df` argument accepted but
never read. -/
def tDistributionPValue (t df : ℝ) : ℝ :=
  2 * (1 - normalCDF |t|)

/-- The placeholder confidence interval `diff ± 2 * pooledSE`. -/
def tTestConfidenceInterval (mean1 mean2 pooledSE df : ℝ) : ℝ × ℝ :=
  (mean1 - mean2 - 2 * pooledSE, mean1 - mean2 + 2 * pooledSE)

/-- Result record of this module's Welch t-test. -/
structure TTestResult where
  tStatistic : ℝ
  degreesOfFreedom : ℝ
  pValue : ℝ
  significant : Prop
  confidenceInterval : ℝ × ℝ

/-- Welch's two-sample t-test (`TumorStatisticalAnalysis.ts`, `tTest`),
with `alpha = 0.05` fixed by the constructor. -/
def tTest (group1 group2 : List ℝ) : TTestResult :=
  let n1 : ℝ := group1.length
  let n2 : ℝ := group2.length
  let mean1 := mean group1
  let mean2 := mean group2
  let var1 := variance group1
  let var2 := variance group2
  let pooledSE := Real.sqrt (var1 / n1 + var2 / n2)
  let tStatistic := (mean1 - mean2) / pooledSE
  let df := (var1 / n1 + var2 / n2) ^ 2 /
    ((var1 / n1) ^ 2 / (n1 - 1) + (var2 / n2) ^ 2 / (n2 - 1))
  let pValue := tDistributionPValue tStatistic df
  { tStatistic := tStatistic,
    degreesOfFreedom := df,
    pValue := pValue,
    significant := pValue < 0.05,
    confidenceInterval := tTestConfidenceInterval mean1 mean2 pooledSE df }

/-- Result record of the Mann-Whitney U test. -/
structure MannWhitneyResult where
  uStatistic : ℚ
  zScore : ℝ
  pValue : ℝ
  significant : Prop

/-- Mann-Whitney U test with midrank tie correction
(`TumorStatisticalAnalysis.ts`, `mannWhitneyU`): pool and sort both samples,
assign midranks, take `U = min(U1, U2)` and a normal-approximation two-sided
p-value. -/
def mannWhitneyU (group1 group2 : List ℝ) : MannWhitneyResult :=
  let u1 := mwU1 group1 group2
  let u2 := mwU2 group1 group2
  let u := min u1 u2
  let n1 : ℝ := group1.length
  let n2 : ℝ := group2.length
  let meanU := n1 * n2 / 2
  let sdU := Real.sqrt (n1 * n2 * (n1 + n2 + 1) / 12)
  let zScore := ((u : ℝ) - meanU) / sdU
  { uStatistic := u,
    zScore := zScore,
    pValue := 2 * (1 - normalCDF |zScore|),
    significant := 2 * (1 - normalCDF |zScore|) < 0.05 }

/-- The constructor's fixed confidence level `0.95`. -/
def confidenceLevel : ℚ := 19 / 20

/-- One with-replacement resample (`resample`): `data.length` draws, the
`i`-th taking `data[rand i]`; `rand i` stands for the `i`-th value of
`Math.floor(Math.random() * data.length)` and is in bounds for genuine
random draws. -/
def resample (data : List ℝ) (rand : ℕ → ℕ) : List ℝ :=
  (List.range data.length).map (fun i => data.getD (rand i) 0)

/-- The simple-ratio TGI `((controlMean - treatmentMean) / controlMean) * 100`
of one bootstrap replicate. -/
def bootstrapReplicate (controlData treatmentData : List ℝ)
    (randC randT : ℕ → ℕ) : ℝ :=
  ((mean (resample controlData randC) - mean (resample treatmentData randT)) /
    mean (resample controlData randC)) * 100

/-- Result record of the bootstrap confidence interval. -/
structure BootstrapCI where
  lower : ℝ
  upper : ℝ
  level : ℚ

/-- The ascending bootstrap TGI distribution: one simple-ratio replicate per
iteration, sorted (stable JS sort modelled by insertion sort). `draws i`
supplies the two index streams consumed by iteration `i`. -/
def bootstrapDistribution (controlData treatmentData : List ℝ) (nBootstrap : ℕ)
    (draws : ℕ → (ℕ → ℕ) × (ℕ → ℕ)) : List ℝ :=
  ((List.range nBootstrap).map (fun i =>
    bootstrapReplicate controlData treatmentData (draws i).1 (draws i).2)).insertionSort
    (fun a b => a ≤ b)

/-- Percentile-bootstrap CI for the simple-ratio TGI
(`TumorStatisticalAnalysis.ts`, `bootstrapTGIConfidenceInterval`): the
elements of the sorted bootstrap distribution at indices
`floor((1 - CL) / 2 * n)` and `floor((1 + CL) / 2 * n)`, with the
constructor's `CL = 0.95`. -/
def bootstrapTGIConfidenceInterval (controlData treatmentData : List ℝ)
    (nBootstrap : ℕ) (draws : ℕ → (ℕ → ℕ) × (ℕ → ℕ)) : BootstrapCI :=
  let tgiBootstrap := bootstrapDistribution controlData treatmentData nBootstrap draws
  let lowerIndex := Nat.floor ((1 - confidenceLevel) / 2 * (nBootstrap : ℚ))
  let upperIndex := Nat.floor ((1 + confidenceLevel) / 2 * (nBootstrap : ℚ))
  { lower := tgiBootstrap.getD lowerIndex 0,
    upper := tgiBootstrap.getD upperIndex 0,
    level := confidenceLevel }

end

end TumorStatisticalAnalysis

namespace TGIAnalysis

/-- Per-animal data collected by the TGI-over-time computation: the group
label and the (studyDay, volume) series. -/
structure AnimalTimepoints where
  group : String
  timepoints : List (ℤ × ℝ)

/-- Embedding of `animal.timepoints.find(tp => tp.studyDay === timepoint)?.volume`:
the volume at an exact-day match, if any. -/
noncomputable def findVolume (tps : List (ℤ × ℝ)) (day : ℤ) : Option ℝ :=
  (tps.find? (fun tp => tp.1 = day)).map (fun tp => tp.2)

/-- The animals of group `g` that have both a baseline-day and a target-day
measurement, as matched `(animalId, baseline, volume)` samples, in map
iteration order. -/
noncomputable def matchedAnimals (animals : List (String × AnimalTimepoints))
    (g : String) (baselineDay day : ℤ) : List StatisticalAnalysis.TimepointAnimal :=
  animals.filterMap (fun p =>
    if p.2.group = g then
      match findVolume p.2.timepoints baselineDay, findVolume p.2.timepoints day with
      | some b, some c => some { animalId := p.1, baseline := b, volume := c }
      | _, _ => none
    else none)

/-- The per-(group, timepoint) step of the TGI-over-time loop: a TGI
statistic is computed and emitted only when the control group and the
treatment group each have at least 3 matched animals at that day; otherwise
the timepoint is skipped (`none`). -/
noncomputable def tgiTimepointStat (animals : List (String × AnimalTimepoints))
    (controlGroup grp : String) (baselineDay day : ℤ) :
    Option StatisticalAnalysis.TGIStatistics :=
  let controlAnimals := matchedAnimals animals controlGroup baselineDay day
  let treatmentAnimals := matchedAnimals animals grp baselineDay day
  if 3 ≤ controlAnimals.length ∧ 3 ≤ treatmentAnimals.length then
    some (StatisticalAnalysis.calculateTGIAtTimepoint treatmentAnimals controlAnimals)
  else none

/-- A study population with 2 control animals and 5 treatment animals, all
measured at the baseline day 0 and at day 7. -/
noncomputable def gatingScenario : List (String × AnimalTimepoints) :=
  [(("c1"), { group := ("Control"), timepoints := [(0, 100), (7, 180)] }),
   (("c2"), { group := ("Control"), timepoints := [(0, 110), (7, 200)] }),
   (("t1"), { group := ("Treated"), timepoints := [(0, 100), (7, 120)] }),
   (("t2"), { group := ("Treated"), timepoints := [(0, 105), (7, 125)] }),
   (("t3"), { group := ("Treated"), timepoints := [(0, 95), (7, 110)] }),
   (("t4"), { group := ("Treated"), timepoints := [(0, 100), (7, 115)] }),
   (("t5"), { group := ("Treated"), timepoints := [(0, 102), (7, 130)] })]

end TGIAnalysis

/-- First raw row of the duplicate-day scenario: animal A1, day 7, a tumor
volume column. -/
def row4a : Row :=
  [(keyAnimalId1, JsValue.str ("A1")), (keyStudyDay1, JsValue.num 7),
   (("TumorVolume"), JsValue.num 100)]

/-- Second raw row of the duplicate-day scenario: same animal and day, a new
body-weight column and a conflicting tumor-volume value. -/
def row4b : Row :=
  [(keyAnimalId1, JsValue.str ("A1")), (keyStudyDay1, JsValue.num 7),
   (("BodyWeight"), JsValue.num 20), (("TumorVolume"), JsValue.num 120)]

/-- The single consolidated measurement expected from folding `row4a` then
`row4b`: one day-7 measurement with the union of both parameter sets, the
later `TumorVolume` value having overwritten the earlier one. -/
def day7Measurement : Measurement :=
  { studyDay := 7, date := JsValue.undef,
    measurements := [(("TumorVolume"), JsValue.num 120),
      (("BodyWeight"), JsValue.num 20)] }

/-- The consolidated record expected for animal A1 after `row4a` and
`row4b`. -/
def consolidatedA1 : AnimalRecord :=
  { animalId := JsValue.str ("A1"), group := JsValue.undef, strain := JsValue.undef,
    sex := JsValue.undef, measurements := [day7Measurement] }

/-- A raw row whose `Study_Day` cell holds the number `0` and which has no
`Day`/`studyDay` column. -/
def row10 : Row :=
  [(keyAnimalId1, JsValue.str ("M1")), (keyStudyDay1, JsValue.num 0),
   (("TumorVolume"), JsValue.num 500)]

/-- A `zipWith` over equal-length lists is the index-wise map over
`List.range`. -/
theorem zipWith_eq_range_map (f : ℝ → ℝ → ℝ) :
    ∀ (as bs : List ℝ), as.length = bs.length →
      List.zipWith f as bs =
        (List.range as.length).map (fun i => f (as.getD i 0) (bs.getD i 0))
  | [], _, _ => by simp
  | a :: as, [], h => by simp at h
  | a :: as, b :: bs, h => by
    simp only [List.zipWith_cons_cons, List.length_cons, List.range_succ_eq_map,
      List.map_cons, List.getD_cons_zero, List.map_map]
    congr 1
    rw [zipWith_eq_range_map f as bs (by simpa using h)]
    apply List.map_congr_left
    intro i _
    simp [Function.comp]

/-- Claim C1: for matched treatment and control samples (equal-length volume
and baseline arrays, each non-empty), `calculateTGI` computes each animal's
growth rate as `(current / baseline) - 1`, averages per group, and returns a
`tgi` equal to `(1 - meanTreatmentGrowth / meanControlGrowth) * 100` when the
mean control growth is positive and `0` otherwise. -/
theorem claim1_calculateTGI_formula (tv cv tb cb : List ℝ)
    (h1 : tv.length = tb.length) (h2 : cv.length = cb.length)
    (h3 : tv ≠ []) (h4 : cv ≠ []) :
    (StatisticalAnalysis.calculateTGI tv cv tb cb).tgi =
      (let gT := (List.range tv.length).map (fun i => tv.getD i 0 / tb.getD i 0 - 1)
       let gC := (List.range cv.length).map (fun i => cv.getD i 0 / cb.getD i 0 - 1)
       if 0 < gC.sum / (gC.length : ℝ) then
         (1 - (gT.sum / (gT.length : ℝ)) / (gC.sum / (gC.length : ℝ))) * 100
       else 0) := by
  simp only [StatisticalAnalysis.calculateTGI, StatisticalAnalysis.mean]
  rw [zipWith_eq_range_map _ tv tb h1, zipWith_eq_range_map _ cv cb h2]

/-- Claim C1 witness: the theorem applied to a concrete matched study
(treatment halves the control growth, so TGI is 50). -/
theorem claim1_calculateTGI_formula_witness :
    ([(150 : ℝ), 150] ≠ [] ∧ [(200 : ℝ), 200] ≠ []) ∧
      (StatisticalAnalysis.calculateTGI [(150 : ℝ), 150] [200, 200] [100, 100]
        [100, 100]).tgi =
      (let gT := (List.range ([(150 : ℝ), 150].length)).map
        (fun i => [(150 : ℝ), 150].getD i 0 / [(100 : ℝ), 100].getD i 0 - 1)
       let gC := (List.range ([(200 : ℝ), 200].length)).map
        (fun i => [(200 : ℝ), 200].getD i 0 / [(100 : ℝ), 100].getD i 0 - 1)
       if 0 < gC.sum / (gC.length : ℝ) then
         (1 - (gT.sum / (gT.length : ℝ)) / (gC.sum / (gC.length : ℝ))) * 100
       else 0) :=
  ⟨⟨List.cons_ne_nil _ _, List.cons_ne_nil _ _⟩,
    claim1_calculateTGI_formula [150, 150] [200, 200] [100, 100] [100, 100]
      rfl rfl (List.cons_ne_nil _ _) (List.cons_ne_nil _ _)⟩

/-- Claim C2: when the mean control growth rate is not strictly positive,
`calculateTGI` returns `tgi = 0` and `tgiSEM = 0` (a defined fallback); when
it is strictly positive, `tgiSEM` is the error-propagation formula
`(100 / C) * sqrt(semT^2 + (T^2 / C^2) * semC^2)` over the standard errors
of the growth-rate samples. -/
theorem claim2_tgi_zero_guard_and_sem (tv cv tb cb : List ℝ)
    (h1 : tv.length = tb.length) (h2 : cv.length = cb.length)
    (h3 : tv ≠ []) (h4 : cv ≠ []) :
    (StatisticalAnalysis.mean (List.zipWith (fun v b => v / b - 1) cv cb) ≤ 0 →
      (StatisticalAnalysis.calculateTGI tv cv tb cb).tgi = 0 ∧
      (StatisticalAnalysis.calculateTGI tv cv tb cb).tgiSEM = 0) ∧
    (0 < StatisticalAnalysis.mean (List.zipWith (fun v b => v / b - 1) cv cb) →
      (StatisticalAnalysis.calculateTGI tv cv tb cb).tgiSEM =
        (100 / StatisticalAnalysis.mean (List.zipWith (fun v b => v / b - 1) cv cb)) *
          Real.sqrt
            (StatisticalAnalysis.standardError
                (List.zipWith (fun v b => v / b - 1) tv tb) ^ 2 +
              (StatisticalAnalysis.mean (List.zipWith (fun v b => v / b - 1) tv tb) ^ 2 /
                  StatisticalAnalysis.mean (List.zipWith (fun v b => v / b - 1) cv cb) ^ 2) *
                StatisticalAnalysis.standardError
                  (List.zipWith (fun v b => v / b - 1) cv cb) ^ 2)) := by
  constructor
  · intro h
    simp only [StatisticalAnalysis.calculateTGI]
    rw [if_neg (not_lt.mpr h), if_neg (not_lt.mpr h)]
    exact ⟨rfl, rfl⟩
  · intro h
    simp only [StatisticalAnalysis.calculateTGI]
    rw [if_pos h]

/-- Claim C2 witness: a concrete matched input whose control group did not
grow (zero mean control growth), for which both `tgi` and `tgiSEM` are the
defined fallback 0. -/
theorem claim2_tgi_zero_guard_and_sem_witness :
    StatisticalAnalysis.mean
        (List.zipWith (fun v b => v / b - 1) [(100 : ℝ), 100] [100, 100]) ≤ 0 ∧
      (StatisticalAnalysis.calculateTGI [(110 : ℝ), 130] [100, 100] [100, 100]
          [100, 100]).tgi = 0 ∧
      (StatisticalAnalysis.calculateTGI [(110 : ℝ), 130] [100, 100] [100, 100]
          [100, 100]).tgiSEM = 0 := by
  have h : StatisticalAnalysis.mean
      (List.zipWith (fun v b => v / b - 1) [(100 : ℝ), 100] [100, 100]) ≤ 0 := by
    norm_num [StatisticalAnalysis.mean]
  exact ⟨h,
    (claim2_tgi_zero_guard_and_sem [110, 130] [100, 100] [100, 100] [100, 100]
      rfl rfl (List.cons_ne_nil _ _) (List.cons_ne_nil _ _)).1 h⟩

/-- Claim C9: the simplified t p-value ignores its degrees-of-freedom
argument and always equals the two-sided normal approximation
`2 * (1 - normalCDF |t|)`. -/
theorem claim9_tdistribution_pvalue_df_independent (t df df2 : ℝ) :
    TumorStatisticalAnalysis.tDistributionPValue t df =
        TumorStatisticalAnalysis.tDistributionPValue t df2 ∧
      TumorStatisticalAnalysis.tDistributionPValue t df =
        2 * (1 - TumorStatisticalAnalysis.normalCDF |t|) :=
  ⟨rfl, rfl⟩

/-- Claim C7 counterexample: `normalCDF 0` is NOT exactly `0.5`, because the
five Abramowitz-Stegun coefficients sum to `0.999999999`, so `erf 0` is
`10⁻⁹` rather than `0`. -/
theorem claim7_normalCDF_zero_counterexample :
    StatisticalAnalysis.normalCDF 0 ≠ 1 / 2 := by
  unfold StatisticalAnalysis.normalCDF StatisticalAnalysis.erf
  rw [zero_div]
  norm_num [Real.exp_zero]

/-- Claim C7 amended: with the exact five-coefficient Abramowitz-Stegun
approximation of the source, `normalCDF 0 = 0.5 * (1 + 10⁻⁹) = 0.5000000005`
exactly (the coefficient sum is `0.999999999`, so `erf 0 = 10⁻⁹`). -/
theorem claim7_normalCDF_zero_amended :
    StatisticalAnalysis.normalCDF 0 = 0.5 * (1 + 1 / 1000000000) := by
  unfold StatisticalAnalysis.normalCDF StatisticalAnalysis.erf
  rw [zero_div]
  norm_num [Real.exp_zero]

/-- Claim C6: swapping the argument order of the Welch t-test negates the
t-statistic and leaves the two-sided p-value and the degrees of freedom
unchanged — for both the `TumorStatisticalAnalysis.tTest` and the
`StatisticalAnalysis.welchTTest` implementations. -/
theorem claim6_welch_ttest_swap (A B : List ℝ) (hA : 2 ≤ A.length) (hB : 2 ≤ B.length) :
    ((TumorStatisticalAnalysis.tTest A B).tStatistic =
        -(TumorStatisticalAnalysis.tTest B A).tStatistic) ∧
      (TumorStatisticalAnalysis.tTest A B).pValue =
        (TumorStatisticalAnalysis.tTest B A).pValue ∧
      (TumorStatisticalAnalysis.tTest A B).degreesOfFreedom =
        (TumorStatisticalAnalysis.tTest B A).degreesOfFreedom ∧
      (StatisticalAnalysis.welchTTest A B).tStatistic =
        -(StatisticalAnalysis.welchTTest B A).tStatistic ∧
      (StatisticalAnalysis.welchTTest A B).pValue =
        (StatisticalAnalysis.welchTTest B A).pValue ∧
      (StatisticalAnalysis.welchTTest A B).degreesOfFreedom =
        (StatisticalAnalysis.welchTTest B A).degreesOfFreedom := by
  have traw : ∀ X Y : List ℝ,
      (TumorStatisticalAnalysis.mean X - TumorStatisticalAnalysis.mean Y) /
        Real.sqrt (TumorStatisticalAnalysis.variance X / (X.length : ℝ) +
          TumorStatisticalAnalysis.variance Y / (Y.length : ℝ)) =
      -((TumorStatisticalAnalysis.mean Y - TumorStatisticalAnalysis.mean X) /
        Real.sqrt (TumorStatisticalAnalysis.variance Y / (Y.length : ℝ) +
          TumorStatisticalAnalysis.variance X / (X.length : ℝ))) := by
    intro X Y
    rw [add_comm (TumorStatisticalAnalysis.variance Y / (Y.length : ℝ))
      (TumorStatisticalAnalysis.variance X / (X.length : ℝ)), ← neg_div, neg_sub]
  have draw : ∀ X Y : List ℝ,
      (TumorStatisticalAnalysis.variance X / (X.length : ℝ) +
          TumorStatisticalAnalysis.variance Y / (Y.length : ℝ)) ^ 2 /
        ((TumorStatisticalAnalysis.variance X / (X.length : ℝ)) ^ 2 / ((X.length : ℝ) - 1) +
          (TumorStatisticalAnalysis.variance Y / (Y.length : ℝ)) ^ 2 / ((Y.length : ℝ) - 1)) =
      (TumorStatisticalAnalysis.variance Y / (Y.length : ℝ) +
          TumorStatisticalAnalysis.variance X / (X.length : ℝ)) ^ 2 /
        ((TumorStatisticalAnalysis.variance Y / (Y.length : ℝ)) ^ 2 / ((Y.length : ℝ) - 1) +
          (TumorStatisticalAnalysis.variance X / (X.length : ℝ)) ^ 2 / ((X.length : ℝ) - 1)) := by
    intro X Y
    rw [add_comm (TumorStatisticalAnalysis.variance Y / (Y.length : ℝ))
        (TumorStatisticalAnalysis.variance X / (X.length : ℝ)),
      add_comm ((TumorStatisticalAnalysis.variance Y / (Y.length : ℝ)) ^ 2 / ((Y.length : ℝ) - 1))
        ((TumorStatisticalAnalysis.variance X / (X.length : ℝ)) ^ 2 / ((X.length : ℝ) - 1))]
  have traw2 : ∀ X Y : List ℝ,
      (StatisticalAnalysis.mean X - StatisticalAnalysis.mean Y) /
        Real.sqrt (StatisticalAnalysis.standardDeviation X ^ 2 / (X.length : ℝ) +
          StatisticalAnalysis.standardDeviation Y ^ 2 / (Y.length : ℝ)) =
      -((StatisticalAnalysis.mean Y - StatisticalAnalysis.mean X) /
        Real.sqrt (StatisticalAnalysis.standardDeviation Y ^ 2 / (Y.length : ℝ) +
          StatisticalAnalysis.standardDeviation X ^ 2 / (X.length : ℝ))) := by
    intro X Y
    rw [add_comm (StatisticalAnalysis.standardDeviation Y ^ 2 / (Y.length : ℝ))
      (StatisticalAnalysis.standardDeviation X ^ 2 / (X.length : ℝ)), ← neg_div, neg_sub]
  have draw2 : ∀ X Y : List ℝ,
      (StatisticalAnalysis.standardDeviation X ^ 2 / (X.length : ℝ) +
          StatisticalAnalysis.standardDeviation Y ^ 2 / (Y.length : ℝ)) ^ 2 /
        ((StatisticalAnalysis.standardDeviation X ^ 2 / (X.length : ℝ)) ^ 2 / ((X.length : ℝ) - 1) +
          (StatisticalAnalysis.standardDeviation Y ^ 2 / (Y.length : ℝ)) ^ 2 / ((Y.length : ℝ) - 1)) =
      (StatisticalAnalysis.standardDeviation Y ^ 2 / (Y.length : ℝ) +
          StatisticalAnalysis.standardDeviation X ^ 2 / (X.length : ℝ)) ^ 2 /
        ((StatisticalAnalysis.standardDeviation Y ^ 2 / (Y.length : ℝ)) ^ 2 / ((Y.length : ℝ) - 1) +
          (StatisticalAnalysis.standardDeviation X ^ 2 / (X.length : ℝ)) ^ 2 / ((X.length : ℝ) - 1)) := by
    intro X Y
    rw [add_comm (StatisticalAnalysis.standardDeviation Y ^ 2 / (Y.length : ℝ))
        (StatisticalAnalysis.standardDeviation X ^ 2 / (X.length : ℝ)),
      add_comm ((StatisticalAnalysis.standardDeviation Y ^ 2 / (Y.length : ℝ)) ^ 2 / ((Y.length : ℝ) - 1))
        ((StatisticalAnalysis.standardDeviation X ^ 2 / (X.length : ℝ)) ^ 2 / ((X.length : ℝ) - 1))]
  refine ⟨?_, ?_, ?_, ?_, ?_, ?_⟩
  · simp only [TumorStatisticalAnalysis.tTest]
    exact traw A B
  · simp only [TumorStatisticalAnalysis.tTest, TumorStatisticalAnalysis.tDistributionPValue]
    rw [traw B A, abs_neg]
  · simp only [TumorStatisticalAnalysis.tTest]
    exact draw A B
  · simp only [StatisticalAnalysis.welchTTest]
    exact traw2 A B
  · simp only [StatisticalAnalysis.welchTTest]
    rw [traw2 B A, abs_neg, draw2 B A]
  · simp only [StatisticalAnalysis.welchTTest]
    exact draw2 A B

/-- Claim C6 witness: the swap symmetry at concrete two- and three-element
groups. -/
theorem claim6_welch_ttest_swap_witness :
    (2 ≤ [(1 : ℝ), 2].length ∧ 2 ≤ [(3 : ℝ), 4, 5].length) ∧
      ((TumorStatisticalAnalysis.tTest [(1 : ℝ), 2] [3, 4, 5]).tStatistic =
        -(TumorStatisticalAnalysis.tTest [(3 : ℝ), 4, 5] [1, 2]).tStatistic) ∧
      (TumorStatisticalAnalysis.tTest [(1 : ℝ), 2] [3, 4, 5]).pValue =
        (TumorStatisticalAnalysis.tTest [(3 : ℝ), 4, 5] [1, 2]).pValue ∧
      (TumorStatisticalAnalysis.tTest [(1 : ℝ), 2] [3, 4, 5]).degreesOfFreedom =
        (TumorStatisticalAnalysis.tTest [(3 : ℝ), 4, 5] [1, 2]).degreesOfFreedom ∧
      (StatisticalAnalysis.welchTTest [(1 : ℝ), 2] [3, 4, 5]).tStatistic =
        -(StatisticalAnalysis.welchTTest [(3 : ℝ), 4, 5] [1, 2]).tStatistic ∧
      (StatisticalAnalysis.welchTTest [(1 : ℝ), 2] [3, 4, 5]).pValue =
        (StatisticalAnalysis.welchTTest [(3 : ℝ), 4, 5] [1, 2]).pValue ∧
      (StatisticalAnalysis.welchTTest [(1 : ℝ), 2] [3, 4, 5]).degreesOfFreedom =
        (StatisticalAnalysis.welchTTest [(3 : ℝ), 4, 5] [1, 2]).degreesOfFreedom :=
  ⟨⟨by norm_num, by norm_num⟩,
    claim6_welch_ttest_swap [1, 2] [3, 4, 5] (by norm_num) (by norm_num)⟩

/-- Claim C3: in the TGI-over-time computation, a study day at which fewer
than 3 control animals or fewer than 3 treatment animals have both a
baseline-day and a target-day measurement yields no TGI statistic for that
(group, timepoint). -/
theorem claim3_min_sample_gating (animals : List (String × TGIAnalysis.AnimalTimepoints))
    (cg g : String) (bday day : ℤ)
    (h : (TGIAnalysis.matchedAnimals animals cg bday day).length < 3 ∨
      (TGIAnalysis.matchedAnimals animals g bday day).length < 3) :
    TGIAnalysis.tgiTimepointStat animals cg g bday day = none := by
  have hneg : ¬(3 ≤ (TGIAnalysis.matchedAnimals animals cg bday day).length ∧
      3 ≤ (TGIAnalysis.matchedAnimals animals g bday day).length) := by omega
  simp only [TGIAnalysis.tgiTimepointStat]
  rw [if_neg hneg]

/-- Claim C3 witness: a timepoint with 2 matched control animals and 5
matched treatment animals yields no data point. -/
theorem claim3_min_sample_gating_witness :
    ((TGIAnalysis.matchedAnimals TGIAnalysis.gatingScenario ("Control") 0 7).length = 2 ∧
      (TGIAnalysis.matchedAnimals TGIAnalysis.gatingScenario ("Treated") 0 7).length = 5) ∧
      TGIAnalysis.tgiTimepointStat TGIAnalysis.gatingScenario ("Control") ("Treated") 0 7 =
        none :=
  ⟨⟨by decide, by decide⟩,
    claim3_min_sample_gating TGIAnalysis.gatingScenario ("Control") ("Treated") 0 7
      (Or.inl (by decide))⟩

/-- Claim C10: a raw row whose `Study_Day` cell holds the number 0 (falsy)
and which has no `Day`/`studyDay` column is dropped by `addMeasurement`
(no measurement is created, the record is unchanged), because the alias
chain `row.Study_Day || row.Day || row.studyDay` skips the numeric value 0.
The second conjunct runs a full consolidation of such a row: the animal
record is created but stays without measurements. -/
theorem claim10_day_zero_row_dropped :
    (∀ (animal : AnimalRecord) (row : Row),
      rowGet row keyStudyDay1 = JsValue.num 0 →
      rowGet row keyStudyDay2 = JsValue.undef →
      rowGet row keyStudyDay3 = JsValue.undef →
      addMeasurement animal row = animal) ∧
    runOps [ManagerOp.consolidate [row10]] =
      [(JsValue.str ("M1"),
        { animalId := JsValue.str ("M1"), group := JsValue.undef,
          strain := JsValue.undef, sex := JsValue.undef, measurements := [] })] := by
  constructor
  · intro animal row h1 h2 h3
    simp [addMeasurement, h1, h2, h3, orJs, JsValue.truthy, parseIntJs]
  · decide

/-- Claim C10 witness: the general statement applied to the concrete row
with `Study_Day = 0`. -/
theorem claim10_day_zero_row_dropped_witness :
    (rowGet row10 keyStudyDay1 = JsValue.num 0 ∧
      rowGet row10 keyStudyDay2 = JsValue.undef ∧
      rowGet row10 keyStudyDay3 = JsValue.undef) ∧
      addMeasurement
        { animalId := JsValue.str ("M1"), group := JsValue.undef,
          strain := JsValue.undef, sex := JsValue.undef, measurements := [] } row10 =
        { animalId := JsValue.str ("M1"), group := JsValue.undef,
          strain := JsValue.undef, sex := JsValue.undef, measurements := [] } :=
  ⟨⟨by decide, by decide, by decide⟩,
    claim10_day_zero_row_dropped.1 _ row10 (by decide) (by decide) (by decide)⟩

/-- On a sorted list, `getD` is monotone in the index (within bounds). -/
theorem getD_mono_of_sorted (L : List ℝ) (i j : ℕ) (hs : L.Sorted (· ≤ ·))
    (hij : i ≤ j) (hj : j < L.length) : L.getD i 0 ≤ L.getD j 0 := by
  have hi : i < L.length := lt_of_le_of_lt hij hj
  rw [List.getD_eq_getElem?_getD, List.getD_eq_getElem?_getD,
    List.getElem?_eq_getElem hi, List.getElem?_eq_getElem hj]
  simp only [Option.getD_some]
  have := hs.rel_get_of_le (a := ⟨i, hi⟩) (b := ⟨j, hj⟩) (Fin.mk_le_mk.mpr hij)
  simpa [List.get_eq_getElem] using this

/-- Claim C8: for every sequence of random draws, the bootstrap CI resamples
each group with replacement to its own size, computes the simple-ratio TGI
per replicate, sorts the replicates ascending, returns the sorted elements
at indices `floor((1-CL)/2 * n)` and `floor((1+CL)/2 * n)` as lower and
upper bounds (hence `lower ≤ upper`), together with the level `CL = 0.95`. -/
theorem claim8_bootstrap_ci (controlData treatmentData : List ℝ) (n : ℕ)
    (draws : ℕ → (ℕ → ℕ) × (ℕ → ℕ)) (hn : 0 < n) :
    (∀ rand : ℕ → ℕ,
      (TumorStatisticalAnalysis.resample controlData rand).length = controlData.length ∧
      (TumorStatisticalAnalysis.resample treatmentData rand).length = treatmentData.length) ∧
    TumorStatisticalAnalysis.bootstrapDistribution controlData treatmentData n draws =
      ((List.range n).map (fun i =>
        ((TumorStatisticalAnalysis.mean
            (TumorStatisticalAnalysis.resample controlData (draws i).1) -
          TumorStatisticalAnalysis.mean
            (TumorStatisticalAnalysis.resample treatmentData (draws i).2)) /
          TumorStatisticalAnalysis.mean
            (TumorStatisticalAnalysis.resample controlData (draws i).1)) *
          100)).insertionSort (fun a b => a ≤ b) ∧
    (TumorStatisticalAnalysis.bootstrapTGIConfidenceInterval controlData treatmentData
        n draws).lower =
      (TumorStatisticalAnalysis.bootstrapDistribution controlData treatmentData n draws).getD
        (Nat.floor ((1 - TumorStatisticalAnalysis.confidenceLevel) / 2 * (n : ℚ))) 0 ∧
    (TumorStatisticalAnalysis.bootstrapTGIConfidenceInterval controlData treatmentData
        n draws).upper =
      (TumorStatisticalAnalysis.bootstrapDistribution controlData treatmentData n draws).getD
        (Nat.floor ((1 + TumorStatisticalAnalysis.confidenceLevel) / 2 * (n : ℚ))) 0 ∧
    (TumorStatisticalAnalysis.bootstrapTGIConfidenceInterval controlData treatmentData
        n draws).level = 19 / 20 ∧
    (TumorStatisticalAnalysis.bootstrapTGIConfidenceInterval controlData treatmentData
        n draws).lower ≤
      (TumorStatisticalAnalysis.bootstrapTGIConfidenceInterval controlData treatmentData
        n draws).upper := by
  refine ⟨?_, ?_, rfl, rfl, rfl, ?_⟩
  · intro rand
    constructor <;> simp [TumorStatisticalAnalysis.resample]
  · simp only [TumorStatisticalAnalysis.bootstrapDistribution,
      TumorStatisticalAnalysis.bootstrapReplicate]
  · have hq : (0 : ℚ) < n := by exact_mod_cast hn
    have hlen : (TumorStatisticalAnalysis.bootstrapDistribution controlData treatmentData
        n draws).length = n := by
      simp [TumorStatisticalAnalysis.bootstrapDistribution,
        (List.perm_insertionSort _ _).length_eq]
    have hsorted : (TumorStatisticalAnalysis.bootstrapDistribution controlData treatmentData
        n draws).Sorted (fun a b => a ≤ b) := by
      simp only [TumorStatisticalAnalysis.bootstrapDistribution]
      exact List.sorted_insertionSort _ _
    have hij : Nat.floor ((1 - TumorStatisticalAnalysis.confidenceLevel) / 2 * (n : ℚ)) ≤
        Nat.floor ((1 + TumorStatisticalAnalysis.confidenceLevel) / 2 * (n : ℚ)) := by
      apply Nat.floor_le_floor
      rw [TumorStatisticalAnalysis.confidenceLevel]
      nlinarith
    have hj : Nat.floor ((1 + TumorStatisticalAnalysis.confidenceLevel) / 2 * (n : ℚ)) <
        (TumorStatisticalAnalysis.bootstrapDistribution controlData treatmentData
          n draws).length := by
      rw [hlen]
      rw [TumorStatisticalAnalysis.confidenceLevel]
      rw [Nat.floor_lt (by positivity)]
      nlinarith
    exact getD_mono_of_sorted _ _ _ hsorted hij hj

/-- A member of `updateFirst p f l` is a member of `l` or the image under
`f` of a member of `l`. -/
theorem mem_updateFirst {α : Type} (p : α → Bool) (f : α → α) :
    ∀ (l : List α) (x : α), x ∈ updateFirst p f l → x ∈ l ∨ ∃ y, y ∈ l ∧ x = f y
  | [], x, h => by simp [updateFirst] at h
  | a :: l, x, h => by
    by_cases hp : p a
    · rw [updateFirst, if_pos hp] at h
      rcases List.mem_cons.mp h with h | h
      · exact Or.inr ⟨a, List.mem_cons_self a l, h⟩
      · exact Or.inl (List.mem_cons_of_mem a h)
    · rw [updateFirst, if_neg hp] at h
      rcases List.mem_cons.mp h with h | h
      · exact Or.inl (h ▸ List.mem_cons_self a l)
      · rcases mem_updateFirst p f l x h with h | ⟨y, hy, hxy⟩
        · exact Or.inl (List.mem_cons_of_mem a h)
        · exact Or.inr ⟨y, List.mem_cons_of_mem a hy, hxy⟩

/-- The operation `updateFirst` leaves any projection fixed by `f` unchanged. -/
theorem map_updateFirst {α β : Type} (p : α → Bool) (f : α → α) (g : α → β)
    (hf : ∀ y, g (f y) = g y) : ∀ l : List α, (updateFirst p f l).map g = l.map g
  | [] => rfl
  | a :: l => by
    by_cases hp : p a
    · simp [updateFirst, if_pos hp, hf]
    · simp [updateFirst, if_neg hp, map_updateFirst p f g hf l]

/-- Stable re-sorting by study day of a list with pairwise-distinct days
yields a strictly ascending day sequence. -/
theorem insertionSort_days_strict (ms : List Measurement)
    (hnod : (ms.map Measurement.studyDay).Nodup) :
    ((ms.insertionSort dayLE).map Measurement.studyDay).Sorted (· < ·) := by
  have hperm : List.Perm (ms.insertionSort dayLE) ms := List.perm_insertionSort dayLE ms
  have hnod2 : ((ms.insertionSort dayLE).map Measurement.studyDay).Nodup :=
    hnod.perm (hperm.map Measurement.studyDay).symm
  have hsorted : (ms.insertionSort dayLE).Sorted dayLE :=
    List.sorted_insertionSort dayLE ms
  have hle : ((ms.insertionSort dayLE).map Measurement.studyDay).Pairwise (· ≤ ·) :=
    hsorted.map Measurement.studyDay (fun a b hab => hab)
  exact (hle.and hnod2).imp (fun hab => lt_of_le_of_ne hab.1 hab.2)

/-- The operation `addMeasurement` keeps the day sequence strictly ascending (hence also
with at most one measurement per day). -/
theorem addMeasurement_days_sorted (a : AnimalRecord) (row : Row)
    (h : (a.measurements.map Measurement.studyDay).Sorted (· < ·)) :
    ((addMeasurement a row).measurements.map Measurement.studyDay).Sorted (· < ·) := by
  have hnod : (a.measurements.map Measurement.studyDay).Nodup :=
    h.imp (fun hab => ne_of_lt hab)
  unfold addMeasurement
  cases hday : parseIntJs (orJs (orJs (rowGet row keyStudyDay1) (rowGet row keyStudyDay2))
      (rowGet row keyStudyDay3)) with
  | none => exact h
  | some day =>
    simp only
    by_cases hc : a.measurements.any (fun m => m.studyDay = day)
    · rw [if_pos hc]
      apply insertionSort_days_strict
      rw [map_updateFirst (fun m => decide (m.studyDay = day))
        (fun m => { m with measurements := applyRowEntries m.measurements row })
        Measurement.studyDay (fun y => rfl)]
      exact hnod
    · rw [if_neg hc]
      apply insertionSort_days_strict
      rw [List.map_append]
      rw [List.nodup_append]
      refine ⟨hnod, by simp, ?_⟩
      intro d hd hd2
      simp only [List.map_cons, List.map_nil, List.mem_cons, List.not_mem_nil,
        or_false] at hd2
      rcases List.mem_map.mp hd with ⟨m, hm, hmd⟩
      apply hc
      rw [List.any_eq_true]
      exact ⟨m, hm, by simp [hmd, hd2]⟩

/-- The operation `managerAdd` preserves the strictly-ascending-days invariant of every
stored record. -/
theorem managerAdd_days_sorted (st : Manager) (id : JsValue) (row : Row)
    (h : ∀ p ∈ st, ((p.2 : AnimalRecord).measurements.map Measurement.studyDay).Sorted (· < ·)) :
    ∀ p ∈ managerAdd st id row,
      ((p.2 : AnimalRecord).measurements.map Measurement.studyDay).Sorted (· < ·) := by
  intro p hp
  unfold managerAdd at hp
  by_cases hc : st.any (fun e => e.1 = id)
  · rw [if_pos hc] at hp
    rcases mem_updateFirst _ _ st p hp with h1 | ⟨y, hy, hxy⟩
    · exact h p h1
    · subst hxy
      exact addMeasurement_days_sorted y.2 row (h y hy)
  · rw [if_neg hc] at hp
    exact h p hp

/-- The operation `consolidateRow` preserves the strictly-ascending-days invariant. -/
theorem consolidateRow_days_sorted (st : Manager) (row : Row)
    (h : ∀ p ∈ st, ((p.2 : AnimalRecord).measurements.map Measurement.studyDay).Sorted (· < ·)) :
    ∀ p ∈ consolidateRow st row,
      ((p.2 : AnimalRecord).measurements.map Measurement.studyDay).Sorted (· < ·) := by
  intro p hp
  unfold consolidateRow at hp
  by_cases ht : (orJs (orJs (rowGet row keyAnimalId1) (rowGet row keyAnimalId2))
      (rowGet row keyAnimalId3)).truthy
  · rw [if_pos ht] at hp
    by_cases hc : st.any (fun e => e.1 = orJs (orJs (rowGet row keyAnimalId1)
        (rowGet row keyAnimalId2)) (rowGet row keyAnimalId3))
    · rw [if_pos hc] at hp
      exact managerAdd_days_sorted st _ row h p hp
    · rw [if_neg hc] at hp
      refine managerAdd_days_sorted _ _ row ?_ p hp
      intro q hq
      rcases List.mem_append.mp hq with hq | hq
      · exact h q hq
      · simp only [List.mem_cons, List.not_mem_nil, or_false] at hq
        subst hq
        simp
  · rw [if_neg ht] at hp
    exact h p hp

/-- The operation `consolidateData` preserves the strictly-ascending-days invariant. -/
theorem consolidateData_days_sorted :
    ∀ (rows : List Row) (st : Manager),
      (∀ p ∈ st, ((p.2 : AnimalRecord).measurements.map Measurement.studyDay).Sorted (· < ·)) →
      ∀ p ∈ consolidateData st rows,
        ((p.2 : AnimalRecord).measurements.map Measurement.studyDay).Sorted (· < ·)
  | [], st, h => h
  | row :: rows, st, h => by
    have h2 := consolidateRow_days_sorted st row h
    exact consolidateData_days_sorted rows (consolidateRow st row) h2

/-- Every record produced by any sequence of manager operations has a
strictly ascending day sequence. -/
theorem runOps_days_sorted (ops : List ManagerOp) :
    ∀ p ∈ runOps ops,
      ((p.2 : AnimalRecord).measurements.map Measurement.studyDay).Sorted (· < ·) := by
  suffices hgen : ∀ (ops : List ManagerOp) (st : Manager),
      (∀ p ∈ st, ((p.2 : AnimalRecord).measurements.map Measurement.studyDay).Sorted (· < ·)) →
      ∀ p ∈ ops.foldl applyOp st,
        ((p.2 : AnimalRecord).measurements.map Measurement.studyDay).Sorted (· < ·) by
    exact hgen ops [] (by simp)
  intro ops
  induction ops with
  | nil => intro st h; exact h
  | cons op ops ih =>
    intro st h
    apply ih
    cases op with
    | consolidate rows => exact consolidateData_days_sorted rows st h
    | add id row => exact managerAdd_days_sorted st id row h

/-- If the images under `g` are pairwise distinct, at most one element maps
to any given value. -/
theorem filter_length_le_one_of_nodup_map {α β : Type} [DecidableEq β] (g : α → β) :
    ∀ (l : List α), (l.map g).Nodup → ∀ y : β, (l.filter (fun m => g m = y)).length ≤ 1
  | [], _, y => by simp
  | a :: l, h, y => by
    rw [List.map_cons, List.nodup_cons] at h
    by_cases hg : g a = y
    · rw [List.filter_cons_of_pos (by simp [hg])]
      have hnil : l.filter (fun m => g m = y) = [] := by
        rw [List.filter_eq_nil_iff]
        intro b hb hby
        apply h.1
        rw [List.mem_map]
        refine ⟨b, hb, ?_⟩
        simp only [decide_eq_true_eq] at hby
        rw [hby, hg]
      rw [hnil]
      simp
    · rw [List.filter_cons_of_neg (by simp [hg])]
      exact filter_length_le_one_of_nodup_map g l h.2 y

/-- Claim C4: after any sequence of `consolidateData`/`addMeasurement` calls
on a fresh manager, every animal record holds at most one measurement per
study day and its measurement list is sorted ascending by study day; and two
rows for the same (animal, day) merge into one measurement holding the union
of the parameter sets, the later row's value winning for a shared key. -/
theorem claim4_consolidation_invariants :
    (∀ (ops : List ManagerOp), ∀ p ∈ runOps ops,
      (∀ d : ℤ, ((p.2 : AnimalRecord).measurements.filter
        (fun m => m.studyDay = d)).length ≤ 1) ∧
      ((p.2 : AnimalRecord).measurements.map Measurement.studyDay).Sorted (· ≤ ·)) ∧
    runOps [ManagerOp.consolidate [row4a, row4b]] =
      [(JsValue.str ("A1"), consolidatedA1)] := by
  constructor
  · intro ops p hp
    have hs := runOps_days_sorted ops p hp
    constructor
    · exact filter_length_le_one_of_nodup_map Measurement.studyDay _
        (hs.imp (fun hab => ne_of_lt hab))
    · exact hs.imp (fun hab => le_of_lt hab)
  · decide

/-- Claim C4 witness: the invariant read off the concrete consolidated
state of the duplicate-day scenario. -/
theorem claim4_consolidation_invariants_witness :
    ((JsValue.str ("A1"), consolidatedA1) ∈ runOps [ManagerOp.consolidate [row4a, row4b]]) ∧
      (∀ d : ℤ,
        ((consolidatedA1.measurements.filter (fun m => m.studyDay = d)).length ≤ 1)) ∧
      (consolidatedA1.measurements.map Measurement.studyDay).Sorted (· ≤ ·) :=
  ⟨by decide,
    claim4_consolidation_invariants.1 [ManagerOp.consolidate [row4a, row4b]]
      (JsValue.str ("A1"), consolidatedA1) (by decide)⟩

/-- A nonempty list decomposes as the replicate of its leading tie block
followed by the remainder. -/
theorem cons_eq_replicate_append {α : Type} [DecidableEq α] (x : α) (xs : List α) :
    x :: xs = List.replicate (1 + (xs.takeWhile (fun y => y = x)).length) x ++
      xs.dropWhile (fun y => y = x) := by
  have htw : xs.takeWhile (fun y => y = x) =
      List.replicate ((xs.takeWhile (fun y => y = x)).length) x := by
    apply List.eq_replicate_of_mem
    intro b hb
    simpa using List.mem_takeWhile_imp hb
  rw [Nat.add_comm, List.replicate_succ, List.cons_append]
  nth_rewrite 1 [show xs = xs.takeWhile (fun y => y = x) ++ xs.dropWhile (fun y => y = x)
    from (List.takeWhile_append_dropWhile _ _).symm]
  rw [htw]
  simp

/-- In a sorted list whose elements all dominate `x`, everything surviving
the leading `= x` block is strictly above `x`. -/
theorem dropWhile_gt {α : Type} [LinearOrder α] [DecidableEq α] (x : α) :
    ∀ xs : List α, xs.Sorted (· ≤ ·) → (∀ y ∈ xs, x ≤ y) →
      ∀ y ∈ xs.dropWhile (fun y => y = x), x < y
  | [], _, _, y, hy => by simp at hy
  | z :: zs, hs, hge, y, hy => by
    rw [List.sorted_cons] at hs
    by_cases hz : z = x
    · rw [List.dropWhile_cons_of_pos (by simp [hz])] at hy
      refine dropWhile_gt x zs hs.2 ?_ y hy
      intro w hw
      rw [← hz]
      exact hs.1 w hw
    · rw [List.dropWhile_cons_of_neg (by simp [hz])] at hy
      rcases List.mem_cons.mp hy with h1 | hmem
      · rw [h1]
        exact lt_of_le_of_ne (hge z (List.mem_cons_self z zs)) (Ne.symm hz)
      · exact lt_of_lt_of_le
          (lt_of_le_of_ne (hge z (List.mem_cons_self z zs)) (Ne.symm hz))
          (hs.1 y hmem)

/-- The tie-scanning pass assigns every element `v` of a sorted list the
midrank `r + countLt v + (countEq v - 1) / 2`, where `countLt`/`countEq`
count the strictly smaller and the equal pooled values. -/
theorem rankRuns_midrank {α : Type} [LinearOrder α] [DecidableEq α] :
    ∀ (n : ℕ) (l : List α), l.length ≤ n → l.Sorted (· ≤ ·) → ∀ r : ℚ,
      TumorStatisticalAnalysis.rankRuns r l = l.map (fun v =>
        r + ((l.filter (fun w => w < v)).length : ℚ) +
          (((l.filter (fun w => w = v)).length : ℚ) - 1) / 2)
  | 0, l, hl, _, r => by
    have : l = [] := List.eq_nil_of_length_eq_zero (Nat.le_zero.mp hl)
    subst this
    simp [TumorStatisticalAnalysis.rankRuns]
  | n + 1, [], _, _, r => by simp [TumorStatisticalAnalysis.rankRuns]
  | n + 1, x :: xs, hl, hs, r => by
    rw [List.sorted_cons] at hs
    have hge : ∀ y ∈ xs, x ≤ y := hs.1
    have hxs : xs.Sorted (· ≤ ·) := hs.2
    have hrest_gt : ∀ y ∈ xs.dropWhile (fun y => y = x), x < y :=
      dropWhile_gt x xs hxs hge
    have hrest_sorted : (xs.dropWhile (fun y => y = x)).Sorted (· ≤ ·) :=
      List.Pairwise.sublist (List.dropWhile_sublist _) hxs
    have hrest_len : (xs.dropWhile (fun y => y = x)).length ≤ n := by
      have h1 : (xs.dropWhile (fun y => decide (y = x))).length ≤ xs.length :=
        (List.dropWhile_sublist _).length_le
      have h2 : xs.length ≤ n := by simpa using hl
      exact le_trans h1 h2
    have hlt0 : (x :: xs).filter (fun w => w < x) = [] := by
      rw [List.filter_eq_nil_iff]
      intro b hb hbx
      simp only [decide_eq_true_eq] at hbx
      rcases List.mem_cons.mp hb with rfl | hmem
      · exact lt_irrefl b hbx
      · nth_rewrite 1 [cons_eq_replicate_append x xs] at hb
        rcases List.mem_append.mp hb with hrep | hrest
        · rw [List.eq_of_mem_replicate hrep] at hbx
          exact lt_irrefl x hbx
        · exact absurd hbx (not_lt_of_gt (hrest_gt b hrest))
    have heq0 : (x :: xs).filter (fun w => w = x) =
        List.replicate (1 + (xs.takeWhile (fun y => y = x)).length) x := by
      nth_rewrite 1 [cons_eq_replicate_append x xs]
      rw [List.filter_append, List.filter_replicate_of_pos (by simp)]
      have : (xs.dropWhile (fun y => y = x)).filter (fun w => w = x) = [] := by
        rw [List.filter_eq_nil_iff]
        intro b hb hbx
        simp only [decide_eq_true_eq] at hbx
        exact absurd hbx (ne_of_gt (hrest_gt b hb))
      rw [this, List.append_nil]
    simp only [TumorStatisticalAnalysis.rankRuns]
    conv_rhs => rw [cons_eq_replicate_append x xs]
    rw [List.map_append, List.map_replicate]
    rw [rankRuns_midrank n (xs.dropWhile (fun y => y = x)) hrest_len hrest_sorted
      (r + ((1 + (xs.takeWhile (fun y => y = x)).length : ℕ) : ℚ))]
    congr 1
    · congr 1
      rw [← cons_eq_replicate_append x xs, hlt0, heq0, List.length_nil,
        List.length_replicate]
      push_cast
      ring
    · apply List.map_congr_left
      intro v hv
      have hxv : x < v := hrest_gt v hv
      have hltv : (List.replicate (1 + (xs.takeWhile (fun y => y = x)).length) x ++
          xs.dropWhile (fun y => y = x)).filter (fun w => w < v) =
          List.replicate (1 + (xs.takeWhile (fun y => y = x)).length) x ++
            (xs.dropWhile (fun y => y = x)).filter (fun w => w < v) := by
        rw [List.filter_append, List.filter_replicate_of_pos (by simp [hxv])]
      have heqv : (List.replicate (1 + (xs.takeWhile (fun y => y = x)).length) x ++
          xs.dropWhile (fun y => y = x)).filter (fun w => w = v) =
          (xs.dropWhile (fun y => y = x)).filter (fun w => w = v) := by
        rw [List.filter_append, List.filter_replicate_of_neg (by simp [ne_of_lt hxv]),
          List.nil_append]
      rw [hltv, heqv, List.length_append, List.length_replicate]
      push_cast
      ring

/-- Claim C5: `mannWhitneyU` ranks the pooled sorted values with midranks —
every member of a tie block receives the average of the tied (1-based)
positions, i.e. the mean of the first tied position `countLt + 1` and the
last tied position `countLt + countEq` (for example `[1, 2, 2, 3]` receives
ranks `[1, 2.5, 2.5, 4]`); the pooled list it ranks is sorted ascending by
value; and for non-empty groups with all-distinct pooled values the computed
`U1` and `U2` satisfy `U1 + U2 = n1 * n2`, with `U = min(U1, U2)`. -/
theorem claim5_mannwhitney_midranks :
    (∀ {α : Type} [inst1 : LinearOrder α] [inst2 : DecidableEq α] (l : List α),
      l.Sorted (· ≤ ·) →
      TumorStatisticalAnalysis.rankRuns 1 l = l.map (fun v =>
        ((((l.filter (fun w => w < v)).length : ℚ) + 1) +
          (((l.filter (fun w => w < v)).length : ℚ) +
            ((l.filter (fun w => w = v)).length : ℚ))) / 2)) ∧
    TumorStatisticalAnalysis.rankRuns 1 [(1 : ℚ), 2, 2, 3] = [1, 5 / 2, 5 / 2, 4] ∧
    (∀ g1 g2 : List ℝ,
      ((TumorStatisticalAnalysis.mwSorted g1 g2).map Prod.fst).Sorted (· ≤ ·)) ∧
    ∀ g1 g2 : List ℝ, g1 ≠ [] → g2 ≠ [] → (g1 ++ g2).Nodup →
      TumorStatisticalAnalysis.mwU1 g1 g2 + TumorStatisticalAnalysis.mwU2 g1 g2 =
        (g1.length : ℚ) * (g2.length : ℚ) ∧
      (TumorStatisticalAnalysis.mannWhitneyU g1 g2).uStatistic =
        min (TumorStatisticalAnalysis.mwU1 g1 g2) (TumorStatisticalAnalysis.mwU2 g1 g2) := by
  have key : ∀ {α : Type} [inst1 : LinearOrder α] [inst2 : DecidableEq α] (l : List α),
      l.Sorted (· ≤ ·) →
      TumorStatisticalAnalysis.rankRuns 1 l = l.map (fun v =>
        ((((l.filter (fun w => w < v)).length : ℚ) + 1) +
          (((l.filter (fun w => w < v)).length : ℚ) +
            ((l.filter (fun w => w = v)).length : ℚ))) / 2) := by
    intro α inst1 inst2 l hs
    rw [rankRuns_midrank l.length l le_rfl hs 1]
    apply List.map_congr_left
    intro v _
    ring
  refine ⟨key, ?_, ?_, ?_⟩
  · rw [key [(1 : ℚ), 2, 2, 3] (by decide)]
    norm_num [List.filter_cons, List.filter_nil]
  · intro g1 g2
    have hsorted : (TumorStatisticalAnalysis.mwSorted g1 g2).Sorted
        TumorStatisticalAnalysis.pairLE :=
      List.sorted_insertionSort TumorStatisticalAnalysis.pairLE _
    exact hsorted.map Prod.fst (fun a b hab => hab)
  · intro g1 g2 _ _ _
    constructor
    · rw [TumorStatisticalAnalysis.mwU2]
      ring
    · rfl

/-- Claim C5 witness: the midrank characterization at the concrete sorted
list `[3, 3, 4]` and the `U1 + U2 = n1 * n2` identity at the concrete
distinct-valued groups `[1]` and `[2]`. -/
theorem claim5_mannwhitney_midranks_witness :
    (List.Sorted (· ≤ ·) [(3 : ℚ), 3, 4] ∧ (([(1 : ℝ)] ++ [2]).Nodup)) ∧
      TumorStatisticalAnalysis.rankRuns 1 [(3 : ℚ), 3, 4] =
        ([(3 : ℚ), 3, 4]).map (fun v =>
          (((([(3 : ℚ), 3, 4].filter (fun w => w < v)).length : ℚ) + 1) +
            ((([(3 : ℚ), 3, 4].filter (fun w => w < v)).length : ℚ) +
              (([(3 : ℚ), 3, 4].filter (fun w => w = v)).length : ℚ))) / 2) ∧
      TumorStatisticalAnalysis.mwU1 [(1 : ℝ)] [2] +
          TumorStatisticalAnalysis.mwU2 [(1 : ℝ)] [2] =
        (([(1 : ℝ)].length : ℚ)) * (([(2 : ℝ)].length : ℚ)) :=
  ⟨⟨by decide, by norm_num [List.nodup_cons]⟩,
    claim5_mannwhitney_midranks.1 [(3 : ℚ), 3, 4] (by decide),
    (claim5_mannwhitney_midranks.2.2.2 [(1 : ℝ)] [2] (List.cons_ne_nil _ _)
      (List.cons_ne_nil _ _) (by norm_num [List.nodup_cons])).1⟩

/-- Claim C8 witness: the bootstrap CI bounds at a concrete single-element
pair of groups, four iterations and constant index draws. -/
theorem claim8_bootstrap_ci_witness :
    0 < 4 ∧
      (TumorStatisticalAnalysis.bootstrapTGIConfidenceInterval [(10 : ℝ)] [5] 4
          (fun i => (fun j => 0, fun j => 0))).lower ≤
        (TumorStatisticalAnalysis.bootstrapTGIConfidenceInterval [(10 : ℝ)] [5] 4
          (fun i => (fun j => 0, fun j => 0))).upper :=
  ⟨by decide,
    (claim8_bootstrap_ci [10] [5] 4 (fun i => (fun j => 0, fun j => 0))
      (by decide)).2.2.2.2.2⟩
